/-
  Verification of the devlog native-messaging host subsystem.

  Shallow embedding of the Go sources:
  - internal/natmsg/natmsg.go   (wire codec: Timestamp/Message decoding, frame reading)
  - internal/logger  (Logger: level filter and line formatting)
  - internal/natmsg/manifest.go (UpdateManifestPath, IsManifestPathInUse)
  - cmd/devlog-host/main.go     (argument handling and the read/ack loop)
  - cmd/devlog main             (restoreBrowserHostWrapper)

  JSON values are modelled as an inductive; Go machine integers are Lean Int
  with the int64 bounds made explicit where the source can overflow; fallible
  Go functions return Except/Option.
-/
import Mathlib

namespace Devlog

/-- A decoded JSON value (the shapes the codec distinguishes).  Numbers are
exact rationals: a Go `float64`/`int` target then succeeds or fails depending
on the shape, which is what the decoders in natmsg.go branch on. -/
inductive Json where
  | null
  | bool (b : Bool)
  | num (q : Rat)
  | str (s : String)
  | arr (xs : List Json)
  | obj (fields : List (String × Json))

/-- Wall-clock fields of a Go `time.Time` (year, month, day, hour, minute,
second, nanoseconds) plus the parsed zone offset in minutes.  The layout
`"2006-01-02 15:04:05.000"` used by the logger prints exactly these wall-clock
fields, so the offset is carried but never printed. -/
structure GoTime where
  year : Int
  month : Nat
  day : Nat
  hour : Nat
  minute : Nat
  second : Nat
  nanos : Nat
  offsetMinutes : Int
deriving DecidableEq, Repr

/-- The zero `time.Time` value: January 1, year 1, 00:00:00 UTC. -/
def GoTime.zero : GoTime := ⟨1, 1, 1, 0, 0, 0, 0, 0⟩

/-! ### RFC 3339 parsing (Go `time.Parse` with the RFC3339/RFC3339Nano layouts)

Go's `time.Parse` on these layouts accepts `YYYY-MM-DDTHH:MM:SS`, an optional
fractional-second part introduced by a dot (accepted on parse even when the
layout has none), and a zone of either `Z` or `±HH:MM`.  The parser below is
total and structural on the character list. -/

/-- Parse exactly `n` decimal digits, accumulating their value. -/
def parseDigitsN : Nat → Nat → List Char → Option (Nat × List Char)
  | 0, acc, cs => some (acc, cs)
  | _ + 1, _, [] => none
  | n + 1, acc, c :: cs =>
      if c.isDigit then parseDigitsN n (acc * 10 + (c.toNat - 48)) cs else none

/-- Consume one expected literal character. -/
def expectChar (a : Char) : List Char → Option (List Char)
  | c :: cs => if c = a then some cs else none
  | [] => none

/-- Maximal run of leading digits. -/
def takeDigits : List Char → List Char × List Char
  | c :: cs =>
      if c.isDigit then
        let (ds, r) := takeDigits cs
        (c :: ds, r)
      else ([], c :: cs)
  | [] => ([], [])

def digitsVal (ds : List Char) : Nat :=
  ds.foldl (fun acc c => acc * 10 + (c.toNat - 48)) 0

/-- Fractional seconds after the dot: at least one digit; the first nine
digits give nanoseconds (shorter runs are scaled up, as in Go's
`parseNanoseconds`). -/
def parseFrac (cs : List Char) : Option (Nat × List Char) :=
  match expectChar '.' cs with
  | none => none
  | some cs1 =>
      let (ds, r) := takeDigits cs1
      if ds.isEmpty then none
      else some (digitsVal (ds.take 9) * 10 ^ (9 - min ds.length 9), r)

/-- Zone designator: `Z` (UTC) or `±HH:MM`, as offset minutes. -/
def parseZone : List Char → Option (Int × List Char)
  | 'Z' :: cs => some (0, cs)
  | '+' :: cs =>
      match parseDigitsN 2 0 cs with
      | some (h, cs1) =>
          match expectChar ':' cs1 with
          | some cs2 =>
              match parseDigitsN 2 0 cs2 with
              | some (m, cs3) => some ((h * 60 + m : Nat), cs3)
              | none => none
          | none => none
      | none => none
  | '-' :: cs =>
      match parseDigitsN 2 0 cs with
      | some (h, cs1) =>
          match expectChar ':' cs1 with
          | some cs2 =>
              match parseDigitsN 2 0 cs2 with
              | some (m, cs3) => some (-((h * 60 + m : Nat) : Int), cs3)
              | none => none
          | none => none
      | none => none
  | _ => none

def isLeapYear (y : Int) : Bool :=
  y % 4 == 0 && (y % 100 != 0 || y % 400 == 0)

def daysInMonth (y : Int) (m : Nat) : Nat :=
  if m = 2 then (if isLeapYear y then 29 else 28)
  else if m = 4 ∨ m = 6 ∨ m = 9 ∨ m = 11 then 30
  else 31

/-- The core RFC 3339 parser over a character list.  Field ranges are checked
as Go does (month, day-in-month, hour, minute, second); trailing input is
rejected. -/
def parseRFC3339Core (cs : List Char) : Option GoTime :=
  match parseDigitsN 4 0 cs with
  | none => none
  | some (y, cs) =>
    match expectChar '-' cs with
    | none => none
    | some cs =>
      match parseDigitsN 2 0 cs with
      | none => none
      | some (mo, cs) =>
        match expectChar '-' cs with
        | none => none
        | some cs =>
          match parseDigitsN 2 0 cs with
          | none => none
          | some (d, cs) =>
            match expectChar 'T' cs with
            | none => none
            | some cs =>
              match parseDigitsN 2 0 cs with
              | none => none
              | some (h, cs) =>
                match expectChar ':' cs with
                | none => none
                | some cs =>
                  match parseDigitsN 2 0 cs with
                  | none => none
                  | some (mi, cs) =>
                    match expectChar ':' cs with
                    | none => none
                    | some cs =>
                      match parseDigitsN 2 0 cs with
                      | none => none
                      | some (sec, cs) =>
                        let (ns, cs) := match parseFrac cs with
                          | some (ns, cs1) => (ns, cs1)
                          | none => (0, cs)
                        match parseZone cs with
                        | none => none
                        | some (off, cs) =>
                          if cs = [] ∧ 1 ≤ mo ∧ mo ≤ 12 ∧ 1 ≤ d ∧
                              d ≤ daysInMonth (y : Int) mo ∧ h ≤ 23 ∧
                              mi ≤ 59 ∧ sec ≤ 59 then
                            some ⟨(y : Int), mo, d, h, mi, sec, ns, off⟩
                          else none

/-- Model of `time.Parse(time.RFC3339Nano, s)` and `time.Parse(time.RFC3339, s)`: both
layouts accept the same inputs on parse (the fractional second is accepted
even by the layout without one), so one parser serves both attempts made by
`Timestamp.UnmarshalJSON`. -/
def parseRFC3339 (s : String) : Option GoTime :=
  parseRFC3339Core s.toList

/-- Truncation toward zero, `int64(n)` applied to a Go `float64`. -/
def ratTruncToInt (q : Rat) : Int := Int.tdiv q.num (q.den : Int)

/-- Model of `time.UnixMilli(ms)`: epoch milliseconds to wall-clock fields (civil-date
algorithm).  Go places the result in the local zone; no claim formats a
numeric timestamp, so the UTC wall clock is used here. -/
def unixMilliToGoTime (ms : Int) : GoTime :=
  let ns : Nat := (Int.emod ms 1000).toNat * 1000000
  let secs : Int := Int.fdiv ms 1000
  let days : Int := Int.fdiv secs 86400
  let sod : Nat := (Int.emod secs 86400).toNat
  let z : Int := days + 719468
  let era : Int := Int.fdiv z 146097
  let doe : Nat := (Int.emod z 146097).toNat
  let yoe : Nat := (doe - doe / 1460 + doe / 36524 - doe / 146096) / 365
  let y : Int := (yoe : Int) + era * 400
  let doy : Nat := doe - (365 * yoe + yoe / 4 - yoe / 100)
  let mp : Nat := (5 * doy + 2) / 153
  let dayOfMonth : Nat := doy - (153 * mp + 2) / 5 + 1
  let month : Nat := if mp < 10 then mp + 3 else mp - 9
  let year : Int := if month ≤ 2 then y + 1 else y
  ⟨year, month, dayOfMonth, sod / 3600, (sod / 60) % 60, sod % 60, ns, 0⟩

/-- Model of `Timestamp.UnmarshalJSON` (natmsg.go lines 25–51).  A JSON string is
parsed as RFC3339Nano, then RFC3339; if neither parses the decoder fails with
the invalid-format error (it does not fall through to the numeric branch).
Otherwise a JSON number is epoch milliseconds.  A JSON `null` unmarshals into
a Go string as a no-op, so it reaches the string branch with `s == ""`. -/
def Timestamp.unmarshalJSON (j : Json) : Except String GoTime :=
  match j with
  | .str s =>
      match parseRFC3339 s with
      | some t => .ok t
      | none =>
          match parseRFC3339 s with
          | some t => .ok t
          | none => .error ("invalid timestamp string format: " ++ s)
  | .null => .error ("invalid timestamp string format: " ++ "")
  | .num q => .ok (unixMilliToGoTime (ratTruncToInt q))
  | _ => .error "timestamp must be a string or number"

/-! ### Message decoding (natmsg.go lines 58–133) -/

/-- Model of `strings.ToUpper` on one character (the traffic at hand is ASCII). -/
def charUpper (c : Char) : Char :=
  if 'a' ≤ c ∧ c ≤ 'z' then Char.ofNat (c.toNat - 32) else c

/-- Model of `strings.ToLower` on one character (the traffic at hand is ASCII). -/
def charLower (c : Char) : Char :=
  if 'A' ≤ c ∧ c ≤ 'Z' then Char.ofNat (c.toNat + 32) else c

/-- Model of `strings.ToUpper`. -/
def strUpper (s : String) : String := String.mk (s.toList.map charUpper)

/-- Model of `strings.ToLower`. -/
def strLower (s : String) : String := String.mk (s.toList.map charLower)

/-- One browser console event, as decoded from a wire frame
(`natmsg.Message`; Go `*int` fields become `Option Int`). -/
structure Message where
  type : String
  level : String
  message : String
  url : String
  timestamp : GoTime
  source : String
  line : Option Int
  column : Option Int
deriving Repr

/-- The zero `natmsg.Message` value (what `json.Unmarshal` leaves on a JSON
`null` payload). -/
def Message.zero : Message := ⟨"", "", "", "", GoTime.zero, "", none, none⟩

/-- Last-wins field lookup (later duplicate keys overwrite earlier ones under
`encoding/json`); key matching is modelled exact-case, which is all the wire
traffic uses. -/
def lookupField (fields : List (String × Json)) (k : String) : Option Json :=
  (fields.reverse.find? (fun kv => kv.1 = k)).map (fun kv => kv.2)

/-- Decode a JSON value into a Go `string` field: an absent field or a JSON
`null` leaves the zero value `""`; a non-string shape is a decode error. -/
def getString (j : Option Json) : Except String String :=
  match j with
  | none => .ok ""
  | some .null => .ok ""
  | some (.str s) => .ok s
  | some _ => .error "json: cannot unmarshal value into Go string field"

/-- Model of `strings.TrimSpace` (whitespace at both ends; the inputs at hand are
ASCII). -/
def trimSpace (s : String) : String :=
  String.mk (((s.toList.dropWhile Char.isWhitespace).reverse.dropWhile
    Char.isWhitespace).reverse)

/-- Model of `strconv.Atoi`: optional sign, one or more digits, and the value must fit
in a 64-bit `int`. -/
def atoi (s : String) : Option Int :=
  let cs := s.toList
  let (neg, ds) : Bool × List Char :=
    match cs with
    | '+' :: r => (false, r)
    | '-' :: r => (true, r)
    | r => (false, r)
  if ds.isEmpty ∨ ¬ ds.all Char.isDigit then none
  else
    let n : Int := if neg then -(digitsVal ds : Int) else (digitsVal ds : Int)
    if -9223372036854775808 ≤ n ∧ n < 9223372036854775808 then some n else none

/-- Model of `json.Unmarshal` into a Go `int`: succeeds on a JSON number with no
fractional part that fits in an int64. -/
def jsonToInt (j : Json) : Option Int :=
  match j with
  | .num q =>
      if q.den = 1 ∧ -9223372036854775808 ≤ q.num ∧ q.num < 9223372036854775808
      then some q.num else none
  | _ => none

/-- Model of `parseOptionalInt` (natmsg.go lines 109–133): an absent field or JSON
`null` is "no value"; then a JSON number is tried, then a numeric string
(trimmed; empty means absent); anything else is an error. -/
def parseOptionalInt (raw : Option Json) : Except String (Option Int) :=
  match raw with
  | none => .ok none
  | some .null => .ok none
  | some j =>
      match jsonToInt j with
      | some n => .ok (some n)
      | none =>
          match j with
          | .str s =>
              let s := trimSpace s
              if s = "" then .ok none
              else
                match atoi s with
                | some n => .ok (some n)
                | none => .error "must be an integer value"
          | _ => .error "must be a number or numeric string"

/-- Prefix an error message, as `fmt.Errorf("...: %w", err)` does. -/
def withErrPrefix (p : String) : Except String α → Except String α
  | .ok a => .ok a
  | .error e => .error (p ++ e)

/-- Model of `Message.UnmarshalJSON` (natmsg.go lines 71–107): decode the wire object
field by field; a missing `timestamp` key leaves the zero time (the custom
unmarshaler is never invoked for absent keys); `line`/`column` go through
`parseOptionalInt`. -/
def Message.unmarshalJSON (j : Json) : Except String Message :=
  match j with
  | .null => .ok Message.zero
  | .obj fields => do
      let type ← getString (lookupField fields "type")
      let level ← getString (lookupField fields "level")
      let message ← getString (lookupField fields "message")
      let url ← getString (lookupField fields "url")
      let timestamp ←
        match lookupField fields "timestamp" with
        | none => .ok GoTime.zero
        | some tj => Timestamp.unmarshalJSON tj
      let source ← getString (lookupField fields "source")
      let line ← withErrPrefix "invalid line: "
        (parseOptionalInt (lookupField fields "line"))
      let column ← withErrPrefix "invalid column: "
        (parseOptionalInt (lookupField fields "column"))
      .ok ⟨type, level, message, url, timestamp, source, line, column⟩
  | _ => .error "json: cannot unmarshal value into Go value of type natmsg.wireMessage"

/-! ### The level-filtered log writer (internal/logger) -/

/-- Zero-pad a natural number to `w` digits. -/
def padNat (w : Nat) (n : Nat) : String :=
  let s := toString n
  String.mk (List.replicate (w - s.length) '0') ++ s

/-- The Go layout `"2006-01-02 15:04:05.000"`: zero-padded wall-clock fields
with milliseconds truncated from the nanoseconds. -/
def formatTimestamp (t : GoTime) : String :=
  padNat 4 t.year.toNat ++ "-" ++ padNat 2 t.month ++ "-" ++ padNat 2 t.day ++
    " " ++ padNat 2 t.hour ++ ":" ++ padNat 2 t.minute ++ ":" ++
    padNat 2 t.second ++ "." ++ padNat 3 (t.nanos / 1000000)

/-- The logger's pure state: the accepted-levels set, lower-cased at
construction time (`logger.New`). -/
structure Logger where
  levels : List String

/-- Model of `logger.New` (the level-map part; directory creation and file opening are
I/O outside the pure model). -/
def Logger.new (levels : List String) : Logger :=
  ⟨levels.map strLower⟩

/-- Model of `Logger.ShouldLog`: empty set accepts everything, otherwise membership of
the lower-cased level. -/
def Logger.shouldLog (l : Logger) (level : String) : Bool :=
  if l.levels.isEmpty then true else l.levels.contains (strLower level)

/-- Model of `formatLoc` (logger source lines 118–126): `:line` only when line is a
positive integer, `:line:column` only when both are positive. -/
def formatLoc (line column : Option Int) : String :=
  match line with
  | some l =>
      if l > 0 then
        match column with
        | some c =>
            if c > 0 then ":" ++ toString l ++ ":" ++ toString c
            else ":" ++ toString l
        | none => ":" ++ toString l
      else ""
  | none => ""

/-- Model of `Logger.Log` (logger source lines 74–116) as a pure projection: `none`
when the message is filtered out (no line appended), otherwise the exact line
appended to the file.  The file write itself is I/O outside the model. -/
def Logger.logLine (l : Logger) (m : Message) : Option String :=
  if ¬ l.shouldLog m.level then none
  else
    let timestamp := formatTimestamp m.timestamp
    some ("[" ++ timestamp ++ "] [" ++ strUpper m.level ++ "]" ++
      (if m.url ≠ "" then " [" ++ m.url ++ "]" else "") ++
      (if m.source ≠ "" then " " ++ m.source ++ formatLoc m.line m.column
       else "") ++
      ": " ++ m.message ++ "\n")

/-- The formatting rule as the spec states it (§4.3), for the refinement
theorem of claim C6: segments in spec order with the spec's omission clauses.
This definition follows the SPEC's words; `Logger.logLine` above follows the
source. -/
def specLineCol (line column : Option Int) : String :=
  match line with
  | some l =>
      if 0 < l then
        ":" ++ toString l ++
          (match column with
           | some c => if 0 < c then ":" ++ toString c else ""
           | none => "")
      else ""
  | none => ""

/-- Spec §4.3: `[ts] [LEVEL] [url] source:line:column: message\n`, with the
URL segment (brackets and preceding space) omitted for an empty url and the
whole location segment omitted for an empty source. -/
def specFormatLine (m : Message) : String :=
  "[" ++ formatTimestamp m.timestamp ++ "] [" ++ strUpper m.level ++ "]" ++
    (if m.url = "" then "" else " [" ++ m.url ++ "]") ++
    (if m.source = "" then "" else " " ++ m.source ++ specLineCol m.line m.column) ++
    ": " ++ m.message ++ "\n"

/-! ### Frame reading (`Host.ReadMessage`, natmsg.go lines 163–198)

The input stream is a list of bytes.  `io.ReadFull` returns `io.EOF` only
when it read zero bytes; a stream that ends after 1–3 bytes of the length
prefix yields `io.ErrUnexpectedEOF`, which the code wraps into the
"failed to read message length" error.  The 4-byte prefix is
`binary.NativeEndian` (little-endian on the supported targets). -/

inductive ReadErr where
  | lengthRead
  | zeroLength
  | tooLarge
  | bodyRead
deriving DecidableEq, Repr

inductive FrameResult where
  | eof
  | error (e : ReadErr)
  | ok (payload : List Nat) (rest : List Nat)
deriving DecidableEq, Repr

/-- Value of `binary.NativeEndian.Uint32` on four little-endian bytes. -/
def le32 (b0 b1 b2 b3 : Nat) : Nat :=
  b0 + 256 * b1 + 65536 * b2 + 16777216 * b3

/-- The framing part of `Host.ReadMessage`: read the 4-byte prefix, reject a
zero length, reject a length above 10 MiB before touching the payload, then
read exactly that many payload bytes.  (A successful frame is then handed to
`Message.unmarshalJSON`; the framing outcomes are what the frame-level claims
are about.) -/
def readFrame (s : List Nat) : FrameResult :=
  match s with
  | [] => .eof
  | b0 :: b1 :: b2 :: b3 :: rest =>
      let messageLen := le32 b0 b1 b2 b3
      if messageLen = 0 then .error .zeroLength
      else if messageLen > 10 * 1024 * 1024 then .error .tooLarge
      else if rest.length < messageLen then .error .bodyRead
      else .ok (rest.take messageLen) (rest.drop messageLen)
  | _ => .error .lengthRead

/-! ### The host entry loop (cmd/devlog-host/main.go) -/

/-- Model of `natmsg.Response`: the acknowledgment written back after each frame. -/
structure Response where
  success : Bool
  error : String
deriving DecidableEq, Repr

/-- One outcome of a `ReadMessage` call, as the entry loop sees it. -/
inductive HostEvent where
  | eof
  | readErr (e : String)
  | msg (m : Message)

/-- What the loop produced: the acknowledgments sent (in order) and the lines
appended to the log file (in order). -/
structure LoopResult where
  acks : List Response
  lines : List String
deriving Repr

/-- The read/ack loop of `main` (main.go lines 60–86): end-of-stream breaks
the loop; a read/decode error sends a failure ack with the error text and
continues; a decoded message is handed to the writer (filter + append) and a
success ack is sent.  An exhausted event list is the stream closing, i.e.
end-of-stream.  (Ack-write and file-write failures are I/O outside the pure
model; the source ignores ack-write failures and keeps looping.) -/
def hostLoop (lg : Logger) : List HostEvent → LoopResult
  | [] => ⟨[], []⟩
  | .eof :: _ => ⟨[], []⟩
  | .readErr e :: evs =>
      let r := hostLoop lg evs
      ⟨⟨false, e⟩ :: r.acks, r.lines⟩
  | .msg m :: evs =>
      let r := hostLoop lg evs
      match lg.logLine m with
      | none => ⟨⟨true, ""⟩ :: r.acks, r.lines⟩
      | some line => ⟨⟨true, ""⟩ :: r.acks, line :: r.lines⟩

/-- Model of `natmsg.SessionState` (session.go lines 10–14). -/
structure SessionState where
  log_path : String
  levels : List String
deriving DecidableEq, Repr

/-- How the host process starts. -/
inductive StartOutcome where
  | exitUsage
  | run (logPath : String) (levels : List String)
deriving DecidableEq, Repr

/-- Argument handling of `main` (main.go lines 34–46): fewer than two argv
entries prints the usage text and exits 1; otherwise argv[1] is the log path
and the remaining arguments are the accepted levels, lower-cased.  The
`session` argument models the persisted SessionState record; `main` never
reads it (`ReadSessionState` has no caller in cmd/devlog-host), which is why
the parameter is unused. -/
def hostStart (argv : List String) (_session : Option SessionState) :
    StartOutcome :=
  match argv with
  | _prog :: logPath :: levels => .run logPath (levels.map strLower)
  | _ => .exitUsage

/-! ### The session-scoped manifest router (internal/natmsg/manifest.go and
the devlog CLI's restoreBrowserHostWrapper)

The per-vendor manifest locations are modelled as a list, one entry per
manifest path the router visits (Chrome dir then the Firefox-family dirs);
paths are taken as already clean, so `filepath.Clean` is the identity on
them. -/

/-- The state of one vendor's manifest file: missing, unreadable, readable
but not JSON, or a JSON object (with whether a write to it would succeed). -/
inductive ManifestFile where
  | absent
  | readError
  | invalidJson
  | valid (fields : List (String × Json)) (writable : Bool)

/-- Set a key in the generic key/value structure the rewrite uses
(`raw["path"] = newPath`), preserving the other fields. -/
def setField (fields : List (String × Json)) (k : String) (v : Json) :
    List (String × Json) :=
  if fields.any (fun kv => kv.1 = k) then
    fields.map (fun kv => if kv.1 = k then (kv.1, v) else kv)
  else fields ++ [(k, v)]

/-- Per-file outcome of the rewrite loop in `UpdateManifestPath`: the
resulting file, whether it was updated, and the collected error if any.  A
missing file contributes no error and no update. -/
def updateManifestStep (newPath : String) (f : ManifestFile) :
    ManifestFile × Bool × Option String :=
  match f with
  | .absent => (.absent, false, none)
  | .readError => (.readError, false, some "read failed")
  | .invalidJson => (.invalidJson, false, some "invalid JSON")
  | .valid fields writable =>
      if writable then
        (.valid (setField fields "path" (.str newPath)) writable, true, none)
      else (.valid fields writable, false, some "failed to write file")

/-- The errors `UpdateManifestPath` collects over the manifest list. -/
def collectUpdateErrors (newPath : String) (fs : List ManifestFile) :
    List String :=
  fs.filterMap (fun f => (updateManifestStep newPath f).2.2)

/-- Whether at least one manifest file was updated. -/
def anyUpdated (newPath : String) (fs : List ManifestFile) : Bool :=
  fs.any (fun f => (updateManifestStep newPath f).2.1)

/-- The overall verdict of `UpdateManifestPath` (manifest.go lines 168–180):
partial success is surfaced, all-failed fails outright, and zero manifests
anywhere is the distinct never-registered error. -/
inductive UpdateResult where
  | ok
  | partialFailure (errs : List String)
  | allFailed (errs : List String)
  | nothingRegistered
deriving Repr

/-- Model of `UpdateManifestPath` (manifest.go lines 132–181): rewrite the `path`
field of every manifest file that exists, collecting failures per file. -/
def updateManifestPath (newPath : String) (fs : List ManifestFile) :
    List ManifestFile × UpdateResult :=
  let fs2 := fs.map (fun f => (updateManifestStep newPath f).1)
  let errs := collectUpdateErrors newPath fs
  let updated := anyUpdated newPath fs
  if errs.isEmpty then
    if updated then (fs2, .ok) else (fs2, .nothingRegistered)
  else if updated then (fs2, .partialFailure errs)
  else (fs2, .allFailed errs)

/-- The loop body of `IsManifestPathInUse` (manifest.go lines 190–215):
`found` is set once any manifest file could be read (before JSON parsing);
errors are collected; a manifest whose `path` is not a string is skipped; a
match returns `true` immediately. -/
def inUseLoop (target : String) :
    List ManifestFile → Bool → List String → Except String Bool
  | [], found, errs =>
      if ¬ errs.isEmpty then
        .error "failed to inspect one or more native messaging manifests"
      else if ¬ found then
        .error "no native messaging manifests found (run 'devlog register' first)"
      else .ok false
  | .absent :: rest, found, errs => inUseLoop target rest found errs
  | .readError :: rest, found, errs =>
      inUseLoop target rest found (errs ++ ["read failed"])
  | .invalidJson :: rest, _, errs =>
      inUseLoop target rest true (errs ++ ["invalid JSON"])
  | .valid fields _ :: rest, _, errs =>
      match lookupField fields "path" with
      | some (.str p) => if p = target then .ok true else inUseLoop target rest true errs
      | _ => inUseLoop target rest true errs

/-- Model of `IsManifestPathInUse` (manifest.go lines 183–226). -/
def isManifestPathInUse (target : String) (fs : List ManifestFile) :
    Except String Bool :=
  inUseLoop target fs false []

/-- Executable form of "some manifest file's `path` field equals this
path". -/
def manifestPointsAt (fs : List ManifestFile) (w : String) : Bool :=
  fs.any (fun f =>
    match f with
    | .valid fields _ =>
        match lookupField fields "path" with
        | some (.str p) => p = w
        | _ => false
    | _ => false)

/-- What a session teardown did to the shared state. -/
structure RestoreOutcome where
  files : List ManifestFile
  wrapperRemoved : Bool
  restoredManifests : Bool

/-- Model of `restoreBrowserHostWrapper` (devlog CLI, lines 927–940): locate the
stable host binary (an early return keeps even the wrapper file if that
fails), restore the manifests only when `IsManifestPathInUse` reports this
session's wrapper path as current, and remove the wrapper file. -/
def restoreBrowserHostWrapper (hostBinary : Option String)
    (wrapperPath : String) (fs : List ManifestFile) : RestoreOutcome :=
  match hostBinary with
  | none => ⟨fs, false, false⟩
  | some hostPath =>
      match isManifestPathInUse wrapperPath fs with
      | .ok true => ⟨(updateManifestPath hostPath fs).1, true, true⟩
      | _ => ⟨fs, true, false⟩

/-- Whether an `Except` is a success. -/
def exceptIsOk : Except ε α → Bool
  | .ok _ => true
  | .error _ => false

/-- A manifest file that exists but whose read, parse, or write fails. -/
def fileFails : ManifestFile → Bool
  | .absent => false
  | .readError => true
  | .invalidJson => true
  | .valid _ writable => ¬ writable

/-- A manifest file the rewrite succeeds on. -/
def fileUpdates : ManifestFile → Bool
  | .valid _ true => true
  | _ => false

/-- A manifest location with no file at all. -/
def isAbsent : ManifestFile → Bool
  | .absent => true
  | _ => false

/-! ## Theorems for the claims -/

/-- Claim C1, counterexample: launched with no usable arguments
(`argv = ["devlog-host"]`) while a readable SessionState record
(`/tmp/x/browser.log`, levels `["error"]`) is present, the host process
exits with the usage diagnostic instead of constructing the log writer from
that record — the claimed SessionState fallback does not happen. -/
theorem hostStart_no_args_exits :
    hostStart ["devlog-host"] (some ⟨"/tmp/x/browser.log", ["error"]⟩) =
      .exitUsage ∧
    StartOutcome.exitUsage ≠ .run "/tmp/x/browser.log" ["error"] := by
  decide

/-- Claim C1 (amended): for every invocation of the devlog-host process with
no usable command-line arguments (fewer than two argv entries), the process
exits with the usage diagnostic before opening any stream, regardless of any
persisted SessionState record, which it never reads; with a log-path argument
present it runs with that path and the lower-cased trailing levels. -/
theorem hostStart_resolution :
    (∀ (prog : String) (session : Option SessionState),
        hostStart [prog] session = .exitUsage) ∧
    (∀ session : Option SessionState, hostStart [] session = .exitUsage) ∧
    (∀ (prog logPath : String) (levels : List String)
        (session : Option SessionState),
        hostStart (prog :: logPath :: levels) session =
          .run logPath (levels.map strLower)) :=
  ⟨fun _ _ => rfl, fun _ => rfl, fun _ _ _ _ => rfl⟩

/-- Claim C4, counterexample: an input stream that closes after delivering a
single byte makes `ReadMessage` fail with the wrapped length-read error
(`io.ReadFull` yields `io.ErrUnexpectedEOF`, not `io.EOF`), so the
distinguished clean end-of-stream result is not signalled. -/
theorem readFrame_one_byte_not_eof :
    readFrame [1] = .error .lengthRead ∧ readFrame [1] ≠ .eof := by
  decide

/-- Claim C4 (amended): a stream that closes after delivering zero bytes
signals the distinguished clean end-of-stream result; a stream that closes
after one, two, or three bytes of the length prefix yields the
failed-to-read-message-length decode error instead. -/
theorem readFrame_short_input :
    readFrame [] = .eof ∧
    ∀ s : List Nat, s ≠ [] → s.length < 4 →
      readFrame s = .error .lengthRead := by
  refine ⟨rfl, ?_⟩
  intro s hne hlen
  match s with
  | [] => exact absurd rfl hne
  | [_] => rfl
  | [_, _] => rfl
  | [_, _, _] => rfl
  | _ :: _ :: _ :: _ :: _ => simp at hlen; omega

/-- Witness for `readFrame_short_input` at the three-byte stream
`[0, 0, 64]`. -/
theorem readFrame_short_input_witness :
    readFrame [] = FrameResult.eof ∧
    readFrame [0, 0, 64] = .error .lengthRead :=
  ⟨readFrame_short_input.1,
   readFrame_short_input.2 [0, 0, 64] (by decide) (by decide)⟩

/-- Claim C7: a frame whose 4-byte prefix decodes to length 0 fails with the
malformed-frame error and never yields a message; a prefix above the 10 MiB
ceiling fails with the frame-too-large error, and the result is the same for
every continuation of the stream — the claimed payload is never read. -/
theorem readFrame_zero_and_oversize :
    (∀ b0 b1 b2 b3 : Nat, ∀ rest : List Nat, le32 b0 b1 b2 b3 = 0 →
        readFrame (b0 :: b1 :: b2 :: b3 :: rest) = .error .zeroLength ∧
        ∀ (p r : List Nat),
          readFrame (b0 :: b1 :: b2 :: b3 :: rest) ≠ .ok p r) ∧
    (∀ b0 b1 b2 b3 : Nat, ∀ rest rest2 : List Nat,
        le32 b0 b1 b2 b3 > 10 * 1024 * 1024 →
        readFrame (b0 :: b1 :: b2 :: b3 :: rest) = .error .tooLarge ∧
        readFrame (b0 :: b1 :: b2 :: b3 :: rest) =
          readFrame (b0 :: b1 :: b2 :: b3 :: rest2)) := by
  constructor
  · intro b0 b1 b2 b3 rest h
    refine ⟨by simp [readFrame, h], ?_⟩
    intro p r
    simp [readFrame, h]
  · intro b0 b1 b2 b3 rest rest2 h
    have hz : le32 b0 b1 b2 b3 ≠ 0 := by omega
    exact ⟨by simp [readFrame, hz, h], by simp [readFrame, hz, h]⟩

/-- Witness for `readFrame_zero_and_oversize`: the all-zero prefix, and the
100 MiB prefix `[0, 0, 64, 6]` followed by no payload bytes at all. -/
theorem readFrame_zero_and_oversize_witness :
    readFrame [0, 0, 0, 0] = .error .zeroLength ∧
    readFrame [0, 0, 64, 6] = .error .tooLarge :=
  ⟨(readFrame_zero_and_oversize.1 0 0 0 0 [] (by decide)).1,
   (readFrame_zero_and_oversize.2 0 0 64 6 [] [7] (by decide)).1⟩

/-- Claim C2: the entry loop stops exactly at end-of-stream (later events are
never processed); a read/decode error produces a failure acknowledgment
carrying the error text and the loop continues with the remaining frames;
every decoded message is acknowledged with success — including one the level
filter rejects, which appends no line; an accepted message appends exactly
its formatted line; and on a stream with no end-of-stream event every frame
is processed and acknowledged (no frame-level error terminates the loop). -/
theorem hostLoop_behavior :
    (∀ (lg : Logger) (rest : List HostEvent),
        hostLoop lg (.eof :: rest) = ⟨[], []⟩) ∧
    (∀ (lg : Logger) (e : String) (evs : List HostEvent),
        hostLoop lg (.readErr e :: evs) =
          ⟨⟨false, e⟩ :: (hostLoop lg evs).acks, (hostLoop lg evs).lines⟩) ∧
    (∀ (lg : Logger) (m : Message) (evs : List HostEvent),
        (hostLoop lg (.msg m :: evs)).acks =
          ⟨true, ""⟩ :: (hostLoop lg evs).acks) ∧
    (∀ (lg : Logger) (m : Message) (evs : List HostEvent),
        lg.shouldLog m.level = false →
        (hostLoop lg (.msg m :: evs)).lines = (hostLoop lg evs).lines) ∧
    (∀ (lg : Logger) (m : Message) (evs : List HostEvent) (line : String),
        lg.logLine m = some line →
        (hostLoop lg (.msg m :: evs)).lines =
          line :: (hostLoop lg evs).lines) ∧
    (∀ (lg : Logger) (evs : List HostEvent), HostEvent.eof ∉ evs →
        (hostLoop lg evs).acks.length = evs.length) := by
  refine ⟨fun _ _ => rfl, fun _ _ _ => rfl, ?_, ?_, ?_, ?_⟩
  · intro lg m evs
    cases h : lg.logLine m <;> simp [hostLoop, h]
  · intro lg m evs hfilter
    have hnone : lg.logLine m = none := by
      simp [Logger.logLine, hfilter]
    simp [hostLoop, hnone]
  · intro lg m evs line hline
    simp [hostLoop, hline]
  · intro lg evs hno
    induction evs with
    | nil => rfl
    | cons e evs ih =>
        have hne : e ≠ .eof := fun h => hno (h ▸ List.mem_cons_self e evs)
        have htail : HostEvent.eof ∉ evs := fun h => hno (List.mem_cons_of_mem e h)
        cases e with
        | eof => exact absurd rfl hne
        | readErr s => simp [hostLoop, ih htail]
        | msg m =>
            cases h : lg.logLine m <;> simp [hostLoop, h, ih htail]

/-- Witness for `hostLoop_behavior`: a writer accepting only `"error"`, fed a
filtered-out `"log"` message, a read error, an accepted `"error"` message,
and a terminating end-of-stream with one frame after it. -/
theorem hostLoop_behavior_witness :
    (hostLoop (Logger.new ["error"])
        [.msg ⟨"console", "log", "hi", "", GoTime.zero, "", none, none⟩]).lines =
      (hostLoop (Logger.new ["error"]) []).lines ∧
    (hostLoop (Logger.new ["error"])
        [.msg ⟨"console", "log", "hi", "", GoTime.zero, "", none, none⟩]).acks =
      [⟨true, ""⟩] ∧
    (hostLoop (Logger.new ["error"])
        [.readErr "bad frame", .eof,
         .msg ⟨"console", "log", "hi", "", GoTime.zero, "", none, none⟩]).acks.length = 1 := by
  refine ⟨hostLoop_behavior.2.2.2.1 _ _ _ (by decide), ?_, ?_⟩
  · have h := hostLoop_behavior.2.2.1 (Logger.new ["error"])
      ⟨"console", "log", "hi", "", GoTime.zero, "", none, none⟩ []
    simpa [hostLoop] using h
  · have h := hostLoop_behavior.2.1 (Logger.new ["error"]) "bad frame"
      [.eof, .msg ⟨"console", "log", "hi", "", GoTime.zero, "", none, none⟩]
    simp [h, hostLoop_behavior.1]

/-- Claim C10: `line`/`column` decoding stores any in-range JSON integer,
negative ones included, and accepts signed decimal strings such as `"-5"`
(no non-negativity check); the formatter then treats a line value that is not
positive exactly like an absent line, and a non-positive column exactly like
an absent column, so a decoded non-positive value never appears in the
output line. -/
theorem parseOptionalInt_no_sign_check :
    (∀ n : Int, -9223372036854775808 ≤ n → n < 9223372036854775808 →
        parseOptionalInt (some (.num (n : Rat))) = .ok (some n)) ∧
    parseOptionalInt (some (.str "-5")) = .ok (some (-5)) ∧
    (∀ (l : Int) (c : Option Int), l ≤ 0 → formatLoc (some l) c = "") ∧
    (∀ l c : Int, c ≤ 0 → formatLoc (some l) (some c) = formatLoc (some l) none) := by
  refine ⟨?_, rfl, ?_, ?_⟩
  · intro n h1 h2
    have hj : jsonToInt (.num (n : Rat)) = some n := by
      simp [jsonToInt, Rat.den_intCast, Rat.num_intCast, h1, h2]
    show (match jsonToInt (.num (n : Rat)) with
          | some n => Except.ok (some n)
          | none =>
              match Json.num (n : Rat) with
              | .str s =>
                  let s := trimSpace s
                  if s = "" then Except.ok none
                  else
                    match atoi s with
                    | some n => Except.ok (some n)
                    | none => Except.error "must be an integer value"
              | _ => Except.error "must be a number or numeric string") =
        Except.ok (some n)
    rw [hj]
  · intro l c hl
    have : ¬ l > 0 := by omega
    cases c <;> simp [formatLoc, this]
  · intro l c hc
    have h2 : ¬ c > 0 := by omega
    by_cases hl : l > 0 <;> simp [formatLoc, hl, h2]

/-- Witness for `parseOptionalInt_no_sign_check` at the negative integer
`-5`, a zero line with a positive column, and a positive line with a
negative column. -/
theorem parseOptionalInt_no_sign_check_witness :
    parseOptionalInt (some (.num ((-5 : Int) : Rat))) = .ok (some (-5)) ∧
    formatLoc (some 0) (some 7) = "" ∧
    formatLoc (some 5) (some (-3)) = formatLoc (some 5) none :=
  ⟨parseOptionalInt_no_sign_check.1 (-5) (by decide) (by decide),
   parseOptionalInt_no_sign_check.2.2.1 0 (some 7) (by decide),
   parseOptionalInt_no_sign_check.2.2.2 5 (-3) (by decide)⟩

/-- On an all-digit input, `parseDigitsN` consumes exactly `n` characters
when enough are available. -/
theorem parseDigitsN_of_all_digits :
    ∀ (n acc : Nat) (cs : List Char), cs.all Char.isDigit = true →
      n ≤ cs.length → ∃ v, parseDigitsN n acc cs = some (v, cs.drop n) := by
  intro n
  induction n with
  | zero => intro acc cs _ _; exact ⟨acc, by simp [parseDigitsN]⟩
  | succ n ih =>
      intro acc cs h hlen
      cases cs with
      | nil => simp at hlen
      | cons c t =>
          rw [List.all_cons] at h
          have hc := (Bool.and_eq_true_iff.mp h).1
          have ht := (Bool.and_eq_true_iff.mp h).2
          have hlen2 : n ≤ t.length := by simp at hlen; omega
          obtain ⟨v, hv⟩ := ih (acc * 10 + (c.toNat - 48)) t ht hlen2
          exact ⟨v, by simp [parseDigitsN, hc, hv]⟩

/-- On an all-digit input shorter than `n` characters, `parseDigitsN`
fails. -/
theorem parseDigitsN_short :
    ∀ (n acc : Nat) (cs : List Char), cs.all Char.isDigit = true →
      cs.length < n → parseDigitsN n acc cs = none := by
  intro n
  induction n with
  | zero => intro acc cs _ h; simp at h
  | succ n ih =>
      intro acc cs h hlen
      cases cs with
      | nil => rfl
      | cons c t =>
          rw [List.all_cons] at h
          have hc := (Bool.and_eq_true_iff.mp h).1
          have ht := (Bool.and_eq_true_iff.mp h).2
          have : t.length < n := by simp at hlen; omega
          simp [parseDigitsN, hc, ih (acc * 10 + (c.toNat - 48)) t ht this]

/-- A digit is never the expected dash. -/
theorem expectChar_dash_digits :
    ∀ cs : List Char, cs.all Char.isDigit = true → expectChar '-' cs = none := by
  intro cs h
  cases cs with
  | nil => rfl
  | cons c t =>
      rw [List.all_cons] at h
      have hc := (Bool.and_eq_true_iff.mp h).1
      have hne : c ≠ '-' := by
        intro he
        rw [he] at hc
        exact absurd hc (by decide)
      simp [expectChar, hne]

/-- Dropping characters preserves all-digits. -/
theorem all_digits_drop :
    ∀ (n : Nat) (cs : List Char), cs.all Char.isDigit = true →
      (cs.drop n).all Char.isDigit = true := by
  intro n
  induction n with
  | zero => intro cs h; simpa using h
  | succ n ih =>
      intro cs h
      cases cs with
      | nil => rfl
      | cons c t =>
          rw [List.all_cons] at h
          exact ih t (Bool.and_eq_true_iff.mp h).2

/-- An all-digit character list is not an RFC 3339 date-time: either there
are fewer than four characters, or the character after the year is a digit
where a dash is required. -/
theorem parseRFC3339Core_digits (cs : List Char)
    (h : cs.all Char.isDigit = true) : parseRFC3339Core cs = none := by
  by_cases hlen : 4 ≤ cs.length
  · obtain ⟨v, hv⟩ := parseDigitsN_of_all_digits 4 0 cs h hlen
    have hd := all_digits_drop 4 cs h
    simp [parseRFC3339Core, hv, expectChar_dash_digits _ hd]
  · have := parseDigitsN_short 4 0 cs h (by omega)
    simp [parseRFC3339Core, this]

/-- Claim C5, counterexample: the numeric string `"1697371845123"` is not
accepted as Unix-epoch milliseconds — as a JSON string it is handed to the
RFC 3339 parser, which fails, and timestamp decoding returns the
invalid-timestamp-string error instead of succeeding. -/
theorem timestamp_numeric_string_rejected :
    exceptIsOk (Timestamp.unmarshalJSON (.str "1697371845123")) = false ∧
    Timestamp.unmarshalJSON (.str "1697371845123") =
      .error "invalid timestamp string format: 1697371845123" := by
  exact ⟨rfl, rfl⟩

/-- Claim C5 (amended): timestamp decoding accepts ISO-8601 strings with or
without fractional seconds and JSON numbers (epoch milliseconds); a JSON
string consisting only of digits is NOT interpreted as epoch milliseconds —
every such string fails with the invalid-timestamp-string-format error,
because a successfully-decoded JSON string never falls through to the
numeric branch. -/
theorem timestamp_accepted_shapes :
    (∀ s : String, s.toList.all Char.isDigit = true →
        Timestamp.unmarshalJSON (.str s) =
          .error ("invalid timestamp string format: " ++ s)) ∧
    Timestamp.unmarshalJSON (.str "2024-01-01T00:00:00.000Z") =
      .ok ⟨2024, 1, 1, 0, 0, 0, 0, 0⟩ ∧
    Timestamp.unmarshalJSON (.str "2023-10-15T12:30:45Z") =
      .ok ⟨2023, 10, 15, 12, 30, 45, 0, 0⟩ ∧
    (∀ q : Rat, Timestamp.unmarshalJSON (.num q) =
        .ok (unixMilliToGoTime (ratTruncToInt q))) := by
  refine ⟨?_, rfl, rfl, fun _ => rfl⟩
  intro s h
  have hp : parseRFC3339 s = none := parseRFC3339Core_digits s.toList h
  simp [Timestamp.unmarshalJSON, hp]

/-- Witness for `timestamp_accepted_shapes` at the digit string
`"1697371845123"`. -/
theorem timestamp_accepted_shapes_witness :
    Timestamp.unmarshalJSON (.str "1697371845123") =
      .error ("invalid timestamp string format: " ++ "1697371845123") :=
  timestamp_accepted_shapes.1 "1697371845123" (by decide)

/-- The source's `formatLoc` computes exactly the spec's line/column
segment. -/
theorem formatLoc_eq_specLineCol :
    ∀ line column : Option Int, formatLoc line column = specLineCol line column := by
  intro line column
  cases line with
  | none => rfl
  | some l =>
      by_cases hl : l > 0
      · cases column with
        | none => simp [formatLoc, specLineCol, hl]
        | some c =>
            by_cases hc : c > 0 <;>
              simp [formatLoc, specLineCol, hl, hc, String.append_assoc]
      · cases column <;> simp [formatLoc, specLineCol, hl]

/-- Claim C6: for every message the level filter accepts, the writer appends
exactly one line of the spec's shape — `[timestamp] [LEVEL] [url]
source:line:column: message` plus newline, with the URL segment omitted when
the url is empty, the whole location segment omitted when the source is
empty, `:line` only for a positive line, and `:column` only when line and
column are both positive (`specFormatLine` spells out the spec's §4.3 rule);
and the spec's happy-path input decodes and formats to exactly
`[2024-01-01 00:00:00.000] [ERROR] [http://localhost:3000/] app.js:10:2: boom\n`. -/
theorem logLine_matches_spec :
    (∀ (lg : Logger) (m : Message), lg.shouldLog m.level = true →
        lg.logLine m = some (specFormatLine m)) ∧
    Message.unmarshalJSON (.obj [("type", .str "console"),
        ("level", .str "error"), ("message", .str "boom"),
        ("url", .str "http://localhost:3000/"),
        ("timestamp", .str "2024-01-01T00:00:00.000Z"),
        ("source", .str "app.js"), ("line", .num 10), ("column", .num 2)]) =
      .ok ⟨"console", "error", "boom", "http://localhost:3000/",
        ⟨2024, 1, 1, 0, 0, 0, 0, 0⟩, "app.js", some 10, some 2⟩ ∧
    (Logger.new []).logLine
        ⟨"console", "error", "boom", "http://localhost:3000/",
          ⟨2024, 1, 1, 0, 0, 0, 0, 0⟩, "app.js", some 10, some 2⟩ =
      some "[2024-01-01 00:00:00.000] [ERROR] [http://localhost:3000/] app.js:10:2: boom\n" := by
  refine ⟨?_, rfl, by decide⟩
  intro lg m h
  simp only [Logger.logLine, h, Bool.not_true, Bool.false_eq_true,
    if_false, specFormatLine, formatLoc_eq_specLineCol]
  by_cases hu : m.url = "" <;> by_cases hs : m.source = "" <;>
    simp [hu, hs]

/-- Witness for `logLine_matches_spec`: the accept-all writer on the spec's
happy-path message produces the spec-shaped line. -/
theorem logLine_matches_spec_witness :
    (Logger.new []).logLine
        ⟨"console", "error", "boom", "http://localhost:3000/",
          ⟨2024, 1, 1, 0, 0, 0, 0, 0⟩, "app.js", some 10, some 2⟩ =
      some (specFormatLine
        ⟨"console", "error", "boom", "http://localhost:3000/",
          ⟨2024, 1, 1, 0, 0, 0, 0, 0⟩, "app.js", some 10, some 2⟩) :=
  logLine_matches_spec.1 (Logger.new [])
    ⟨"console", "error", "boom", "http://localhost:3000/",
      ⟨2024, 1, 1, 0, 0, 0, 0, 0⟩, "app.js", some 10, some 2⟩ (by decide)

/-- Claim C9: a JSON payload that omits the `timestamp` key decodes without
error — whatever message it yields carries the zero time value (the custom
timestamp unmarshaler is never invoked for an absent key) — the writer
formats the zero time as `0001-01-01 00:00:00.000`, and a concrete payload
without a timestamp decodes successfully and logs with that rendering. -/
theorem missing_timestamp_is_zero_time :
    (∀ (fields : List (String × Json)) (m : Message),
        lookupField fields "timestamp" = none →
        Message.unmarshalJSON (.obj fields) = .ok m →
        m.timestamp = GoTime.zero) ∧
    formatTimestamp GoTime.zero = "0001-01-01 00:00:00.000" ∧
    Message.unmarshalJSON (.obj [("type", .str "console"),
        ("level", .str "log"), ("message", .str "hi"),
        ("url", .str "http://x/")]) =
      .ok ⟨"console", "log", "hi", "http://x/", GoTime.zero, "", none, none⟩ ∧
    (Logger.new []).logLine
        ⟨"console", "log", "hi", "http://x/", GoTime.zero, "", none, none⟩ =
      some "[0001-01-01 00:00:00.000] [LOG] [http://x/]: hi\n" := by
  refine ⟨?_, by decide, rfl, by decide⟩
  intro fields m hts hok
  simp only [Message.unmarshalJSON, hts] at hok
  cases h1 : getString (lookupField fields "type") with
  | error e => rw [h1] at hok; exact Except.noConfusion hok
  | ok v1 =>
  rw [h1] at hok
  cases h2 : getString (lookupField fields "level") with
  | error e => rw [h2] at hok; exact Except.noConfusion hok
  | ok v2 =>
  rw [h2] at hok
  cases h3 : getString (lookupField fields "message") with
  | error e => rw [h3] at hok; exact Except.noConfusion hok
  | ok v3 =>
  rw [h3] at hok
  cases h4 : getString (lookupField fields "url") with
  | error e => rw [h4] at hok; exact Except.noConfusion hok
  | ok v4 =>
  rw [h4] at hok
  cases h5 : getString (lookupField fields "source") with
  | error e => rw [h5] at hok; exact Except.noConfusion hok
  | ok v5 =>
  rw [h5] at hok
  cases h6 : withErrPrefix "invalid line: "
      (parseOptionalInt (lookupField fields "line")) with
  | error e => rw [h6] at hok; exact Except.noConfusion hok
  | ok v6 =>
  rw [h6] at hok
  cases h7 : withErrPrefix "invalid column: "
      (parseOptionalInt (lookupField fields "column")) with
  | error e => rw [h7] at hok; exact Except.noConfusion hok
  | ok v7 =>
  rw [h7] at hok
  have hfinal := congrArg (fun r =>
    match r with
    | Except.ok mm => mm.timestamp
    | Except.error _ => GoTime.zero) hok
  exact hfinal.symm

/-- Witness for `missing_timestamp_is_zero_time` at a concrete payload with
no `timestamp` key. -/
theorem missing_timestamp_is_zero_time_witness :
    (⟨"console", "log", "hi", "http://x/", GoTime.zero, "", none, none⟩ :
      Message).timestamp = GoTime.zero :=
  missing_timestamp_is_zero_time.1 [("type", .str "console"),
    ("level", .str "log"), ("message", .str "hi"), ("url", .str "http://x/")]
    ⟨"console", "log", "hi", "http://x/", GoTime.zero, "", none, none⟩ rfl rfl

/-- Lemma: `IsManifestPathInUse` answers `true` only when some manifest file's
`path` field really is the target path. -/
theorem inUseLoop_ok_true_points :
    ∀ (w : String) (fs : List ManifestFile) (found : Bool) (errs : List String),
      inUseLoop w fs found errs = .ok true → manifestPointsAt fs w = true := by
  intro w fs
  induction fs with
  | nil =>
      intro found errs h
      by_cases he : errs.isEmpty <;> by_cases hf : found <;>
        simp [inUseLoop, he, hf] at h
  | cons f rest ih =>
      intro found errs h
      cases f with
      | absent =>
          simp only [inUseLoop] at h
          simpa [manifestPointsAt] using ih found errs h
      | readError =>
          simp only [inUseLoop] at h
          simpa [manifestPointsAt] using ih found (errs ++ ["read failed"]) h
      | invalidJson =>
          simp only [inUseLoop] at h
          simpa [manifestPointsAt] using ih true (errs ++ ["invalid JSON"]) h
      | valid fields wr =>
          simp only [inUseLoop] at h
          cases hl : lookupField fields "path" with
          | none =>
              rw [hl] at h
              simpa [manifestPointsAt, hl] using ih true errs h
          | some j =>
              rw [hl] at h
              cases j with
              | str p =>
                  by_cases hp : p = w
                  · simp [manifestPointsAt, List.any_cons, hl, hp]
                  · simp only [hp, if_false] at h
                    simpa [manifestPointsAt, hl, hp] using ih true errs h
              | null => simpa [manifestPointsAt, hl] using ih true errs h
              | bool b => simpa [manifestPointsAt, hl] using ih true errs h
              | num q => simpa [manifestPointsAt, hl] using ih true errs h
              | arr xs => simpa [manifestPointsAt, hl] using ih true errs h
              | obj o => simpa [manifestPointsAt, hl] using ih true errs h

/-- Claim C3, counterexample: a session teardown in which
`FindDevlogHostBinary` fails (the stable host binary is missing) returns
before `os.Remove(wrapperPath)`, so the session's own wrapper file is NOT
removed — even when a manifest still points at this session's wrapper — which
refutes the claim's unconditional "in either case the session's own wrapper
file is removed". -/
theorem restore_missing_binary_keeps_wrapper :
    (restoreBrowserHostWrapper none "/wrap.sh"
        [.valid [("name", .str "com.devlog.host"),
          ("path", .str "/wrap.sh")] true]).wrapperRemoved = false ∧
    (restoreBrowserHostWrapper none "/wrap.sh"
        [.valid [("name", .str "com.devlog.host"),
          ("path", .str "/wrap.sh")] true]).restoredManifests = false := by
  exact ⟨rfl, rfl⟩

/-- Claim C3 (amended): on session teardown, when the stable host binary is
located: if no manifest file's `path` field equals this session's wrapper
path then every manifest file is left entirely unchanged and no restoration
happens; the stable binary path is written back only when some manifest
still points at this session's wrapper; and in either of those cases the
session's own wrapper file is removed.  When locating the stable binary
fails, the teardown returns early: the manifests are untouched, no
restoration happens, and the wrapper file is not removed. -/
theorem restore_only_when_owned :
    (∀ (hp w : String) (fs : List ManifestFile),
      (manifestPointsAt fs w = false →
        (restoreBrowserHostWrapper (some hp) w fs).files = fs ∧
        (restoreBrowserHostWrapper (some hp) w fs).restoredManifests = false) ∧
      ((restoreBrowserHostWrapper (some hp) w fs).restoredManifests = true →
        manifestPointsAt fs w = true) ∧
      (restoreBrowserHostWrapper (some hp) w fs).wrapperRemoved = true) ∧
    (∀ (w : String) (fs : List ManifestFile),
      restoreBrowserHostWrapper none w fs = ⟨fs, false, false⟩) := by
  refine ⟨?_, fun _ _ => rfl⟩
  intro hp w fs
  cases hr : isManifestPathInUse w fs with
  | error e =>
      refine ⟨fun _ => ⟨?_, ?_⟩, fun hcontra => ?_, ?_⟩ <;>
        simp [restoreBrowserHostWrapper, hr] at *
  | ok b =>
      cases b with
      | false =>
          refine ⟨fun _ => ⟨?_, ?_⟩, fun hcontra => ?_, ?_⟩ <;>
            simp [restoreBrowserHostWrapper, hr] at *
      | true =>
          have hpoints := inUseLoop_ok_true_points w fs false [] hr
          refine ⟨fun hfalse => absurd hpoints (by simp [hfalse]), fun _ => hpoints, ?_⟩
          simp [restoreBrowserHostWrapper, hr]

/-- Witness for `restore_only_when_owned`: a manifest pointing at the stable
binary (not this session's wrapper) is untouched and the wrapper is still
removed. -/
theorem restore_only_when_owned_witness :
    (restoreBrowserHostWrapper (some "/usr/local/bin/devlog-host") "/wrap.sh"
        [.valid [("name", .str "com.devlog.host"),
          ("path", .str "/usr/local/bin/devlog-host")] true, .absent]).files =
      [.valid [("name", .str "com.devlog.host"),
        ("path", .str "/usr/local/bin/devlog-host")] true, .absent] ∧
    (restoreBrowserHostWrapper (some "/usr/local/bin/devlog-host") "/wrap.sh"
        [.valid [("name", .str "com.devlog.host"),
          ("path", .str "/usr/local/bin/devlog-host")] true, .absent]).wrapperRemoved = true :=
  ⟨((restore_only_when_owned.1 "/usr/local/bin/devlog-host" "/wrap.sh"
      [.valid [("name", .str "com.devlog.host"),
        ("path", .str "/usr/local/bin/devlog-host")] true, .absent]).1 rfl).1,
   (restore_only_when_owned.1 "/usr/local/bin/devlog-host" "/wrap.sh"
      [.valid [("name", .str "com.devlog.host"),
        ("path", .str "/usr/local/bin/devlog-host")] true, .absent]).2.2⟩

/-- The per-file updated flag is exactly "exists and is writable". -/
theorem stepUpdated_eq_fileUpdates :
    ∀ (p : String) (f : ManifestFile),
      (updateManifestStep p f).2.1 = fileUpdates f := by
  intro p f
  cases f with
  | absent => rfl
  | readError => rfl
  | invalidJson => rfl
  | valid fields wr => cases wr <;> rfl

/-- Lemma: `anyUpdated` agrees with scanning for updatable files. -/
theorem anyUpdated_eq_any_fileUpdates :
    ∀ (p : String) (fs : List ManifestFile),
      anyUpdated p fs = fs.any fileUpdates := by
  intro p fs
  induction fs with
  | nil => rfl
  | cons f rest ih =>
      simp only [anyUpdated, List.any_cons, stepUpdated_eq_fileUpdates]

/-- Claim C8: in the multi-file manifest rewrite, a missing file contributes
no error and does not change the verdict; exactly one error is collected per
existing-but-failing file; when at least one file was updated and failures
occurred, the operation reports partial failure carrying those failures;
when nothing was updated and at least one real failure occurred, it fails
with the collected failures; and when no manifest file exists anywhere, it
fails with the distinct never-registered verdict. -/
theorem updateManifestPath_aggregation :
    (∀ (p : String) (fs : List ManifestFile),
        (updateManifestPath p (.absent :: fs)).2 = (updateManifestPath p fs).2 ∧
        collectUpdateErrors p (.absent :: fs) = collectUpdateErrors p fs) ∧
    (∀ (p : String) (fs : List ManifestFile),
        (collectUpdateErrors p fs).length =
          (fs.filter (fun f => fileFails f)).length) ∧
    (∀ (p : String) (fs : List ManifestFile),
        fs.any fileUpdates = true →
        (collectUpdateErrors p fs).isEmpty = false →
        (updateManifestPath p fs).2 =
          .partialFailure (collectUpdateErrors p fs)) ∧
    (∀ (p : String) (fs : List ManifestFile),
        fs.all (fun f => ! fileUpdates f) = true →
        (collectUpdateErrors p fs).isEmpty = false →
        (updateManifestPath p fs).2 = .allFailed (collectUpdateErrors p fs)) ∧
    (∀ (p : String) (fs : List ManifestFile), fs.all isAbsent = true →
        (updateManifestPath p fs).2 = .nothingRegistered) := by
  refine ⟨?_, ?_, ?_, ?_, ?_⟩
  · intro p fs
    have hce : collectUpdateErrors p (.absent :: fs) = collectUpdateErrors p fs := by
      simp [collectUpdateErrors, List.filterMap_cons, updateManifestStep]
    have hau : anyUpdated p (.absent :: fs) = anyUpdated p fs := by
      simp [anyUpdated, List.any_cons, updateManifestStep]
    refine ⟨?_, hce⟩
    by_cases h1 : (collectUpdateErrors p fs).isEmpty = true <;>
      by_cases h2 : anyUpdated p fs = true <;>
        simp only [updateManifestPath, hce, hau, h1, h2, if_true, if_false,
          Bool.not_eq_true] <;> simp [h1, h2]
  · intro p fs
    induction fs with
    | nil => rfl
    | cons f rest ih =>
        cases f with
        | absent => simpa [collectUpdateErrors, updateManifestStep,
            List.filterMap_cons, fileFails] using ih
        | readError => simpa [collectUpdateErrors, updateManifestStep,
            List.filterMap_cons, fileFails] using ih
        | invalidJson => simpa [collectUpdateErrors, updateManifestStep,
            List.filterMap_cons, fileFails] using ih
        | valid fields wr =>
            cases wr <;>
              simpa [collectUpdateErrors, updateManifestStep,
                List.filterMap_cons, fileFails] using ih
  · intro p fs hupd herr
    have h1 : anyUpdated p fs = true := by
      rw [anyUpdated_eq_any_fileUpdates]; exact hupd
    simp [updateManifestPath, herr, h1]
  · intro p fs hnone herr
    have h1 : anyUpdated p fs = false := by
      rw [anyUpdated_eq_any_fileUpdates]
      rw [List.any_eq_false]
      intro f hf
      have := List.all_eq_true.mp hnone f hf
      simpa using this
    simp [updateManifestPath, herr, h1]
  · intro p fs habs
    have herr : collectUpdateErrors p fs = [] := by
      rw [collectUpdateErrors, List.filterMap_eq_nil_iff]
      intro f hf
      have := List.all_eq_true.mp habs f hf
      cases f <;> simp_all [isAbsent, updateManifestStep]
    have hupd : anyUpdated p fs = false := by
      rw [anyUpdated_eq_any_fileUpdates, List.any_eq_false]
      intro f hf
      have := List.all_eq_true.mp habs f hf
      cases f <;> simp_all [isAbsent, fileUpdates]
    simp [updateManifestPath, herr, hupd]

/-- Witness for `updateManifestPath_aggregation`: a rewrite over one updated
file plus one unreadable file reports partial failure; over a single
unreadable file it fails outright; over a single missing file it reports
never-registered. -/
theorem updateManifestPath_aggregation_witness :
    (updateManifestPath "/w" [.valid [("path", .str "/old")] true,
        .readError]).2 =
      .partialFailure (collectUpdateErrors "/w"
        [.valid [("path", .str "/old")] true, .readError]) ∧
    (updateManifestPath "/w" [.readError]).2 =
      .allFailed (collectUpdateErrors "/w" [.readError]) ∧
    (updateManifestPath "/w" [.absent]).2 = .nothingRegistered :=
  ⟨updateManifestPath_aggregation.2.2.1 "/w"
      [.valid [("path", .str "/old")] true, .readError] (by decide) (by decide),
   updateManifestPath_aggregation.2.2.2.1 "/w" [.readError]
      (by decide) (by decide),
   updateManifestPath_aggregation.2.2.2.2 "/w" [.absent] (by decide)⟩

end Devlog
